import Mathlib

/-!
The `AudioContext` binding of gweb, package `audio`.

A shallow embedding of `src/audio/audio_context.go`.

The Go file is a binding over `syscall/js`: every method of `AudioContext`
reads one property of, or calls one method on, the JavaScript object the
context wraps, and wraps or converts what comes back.  The JavaScript engine
is not part of the repository, so it appears here as a parameter, `js.Host`:
an arbitrary transition system answering property reads and method calls, of
which only this is assumed: a read that succeeds is a read of an object.
Each primitive of `syscall/js` that reaches the engine (`Value.Get`,
`Value.Call`) appends one `js.Event` to a log, which is how statements such as
"exactly one method call is issued" are expressed.

`Value.Get` and `Value.Call` follow `syscall/js`.  `Get` checks its receiver
first: on a value that is neither an object nor a function it panics with a
`ValueError` and asks the host nothing.  `Call` asks the host at once; when
the call fails it panics with a `ValueError` if the receiver is not an object,
and otherwise reads the property of the method's name once more, to panic with
a message of its own if that is not a function and with the host's error if it
is.  The conversions `Float`, `Int` and `String` follow the library too: the
first two panic with a `ValueError` on a value that is not a number, the third
never panics.

Go panics are modelled by `Except (js.Panic ε)`; the world (host state and
log) survives a panic, as the host calls made before it did happen.
-/

namespace js

/-- The type of a JavaScript value (`syscall/js.Type`). -/
inductive JSType where
  | TypeUndefined
  | TypeNull
  | TypeBoolean
  | TypeNumber
  | TypeString
  | TypeSymbol
  | TypeObject
  | TypeFunction
  deriving DecidableEq, Repr

/-- The test `t.isObject()` of `syscall/js`: objects and functions. -/
def JSType.isObject : JSType → Bool
  | .TypeObject => true
  | .TypeFunction => true
  | _ => false

/-- The text `t.String()` of a type. -/
def JSType.String : JSType → String
  | .TypeUndefined => "undefined"
  | .TypeNull => "null"
  | .TypeBoolean => "boolean"
  | .TypeNumber => "number"
  | .TypeString => "string"
  | .TypeSymbol => "symbol"
  | .TypeObject => "object"
  | .TypeFunction => "function"

/-- A JavaScript number / Go `float64`.  A finite value is the dyadic rational
`num / 2 ^ scale` (every finite float64 has this form); the negative zero is
not distinguished from zero. -/
inductive Float64 where
  | finite (num : Int) (scale : Nat)
  | inf (negative : Bool)
  | nan
  deriving DecidableEq, Repr

/-- The float64 that holds the integer `i`. -/
def Float64.ofInt (i : Int) : Float64 := .finite i 0

/-- The number `r` has the integer value `i`. -/
def Float64.isInteger (r : Float64) (i : Int) : Prop :=
  match r with
  | .finite num scale => num = i * 2 ^ scale
  | _ => False

/-- Go's `x <= y` on float64: false as soon as one side is NaN. -/
def Float64.le : Float64 → Float64 → Prop
  | .finite a j, .finite b k => a * 2 ^ k ≤ b * 2 ^ j
  | .finite _ _, .inf negative => negative = false
  | .inf negative, .finite _ _ => negative = true
  | .inf a, .inf b => a = true ∨ b = false
  | _, _ => False

/-- Go's `x == y` on float64. -/
def Float64.eq : Float64 → Float64 → Prop
  | .finite a j, .finite b k => a * 2 ^ k = b * 2 ^ j
  | .inf a, .inf b => a = b
  | _, _ => False

instance (r : Float64) (i : Int) : Decidable (Float64.isInteger r i) := by
  cases r <;> simp only [Float64.isInteger] <;> infer_instance

instance (x y : Float64) : Decidable (Float64.le x y) := by
  cases x <;> cases y <;> simp only [Float64.le] <;> infer_instance

instance (x y : Float64) : Decidable (Float64.eq x y) := by
  cases x <;> cases y <;> simp only [Float64.eq] <;> infer_instance

/-- A JavaScript value as seen through `syscall/js.Value`.  Objects, functions
and symbols are opaque references into the host. -/
inductive Value where
  | undefined
  | null
  | boolean (b : Bool)
  | number (x : Float64)
  | string (s : String)
  | symbol (ref : Nat)
  | object (ref : Nat)
  | function (ref : Nat)
  deriving DecidableEq, Repr

/-- The result of `Value.Type()`. -/
def Value.typeOf : Value → JSType
  | .undefined => .TypeUndefined
  | .null => .TypeNull
  | .boolean _ => .TypeBoolean
  | .number _ => .TypeNumber
  | .string _ => .TypeString
  | .symbol _ => .TypeSymbol
  | .object _ => .TypeObject
  | .function _ => .TypeFunction

/-- The host: the JavaScript engine behind `syscall/js`, with states `σ` and
errors `ε`.  `get` answers a property read and `call` a method call; both may
fail and both may change the host state.  `numberString` is JavaScript's
rendering of a number and `intOutOfRange` is what the platform's conversion
`int(f)` yields when `f` has no `int` value (Go leaves it to the
implementation).  Reading a property of a value that is neither an object nor
a function is a TypeError in JavaScript, so a read that succeeds is a read of
an object (`get_object`). -/
structure Host (σ ε : Type) where
  get : σ → Value → String → Except ε Value × σ
  call : σ → Value → String → List Value → Except ε Value × σ
  numberString : Float64 → String
  intOutOfRange : Float64 → Int
  get_object : ∀ (s : σ) (v : Value) (p : String) (val : Value),
    (get s v p).1 = Except.ok val → v.typeOf.isObject = true

/-- One interaction with the host, together with its outcome. -/
inductive Event (ε : Type) where
  | get (obj : Value) (property : String) (result : Except ε Value)
  | call (obj : Value) (method : String) (args : List Value) (result : Except ε Value)

/-- Whether an event is a method call. -/
def Event.isCall {ε : Type} : Event ε → Bool
  | .get _ _ _ => false
  | .call _ _ _ _ => true

/-- Whether an event is a property read. -/
def Event.isGet {ε : Type} : Event ε → Bool
  | .get _ _ _ => true
  | .call _ _ _ _ => false

/-- The method calls of a log, in order. -/
def methodCalls {ε : Type} (log : List (Event ε)) : List (Event ε) :=
  log.filter Event.isCall

/-- The property reads of a log, in order. -/
def propertyReads {ε : Type} (log : List (Event ε)) : List (Event ε) :=
  log.filter Event.isGet

/-- A Go panic: what the host raised, passed on as it is (`js.Error`); the
`*js.ValueError` that `syscall/js` raises itself, with the name of the method
and the type of the value it was used on; or a plain message. -/
inductive Panic (ε : Type) where
  | host (e : ε)
  | valueError (method : String) (type : JSType)
  | message (text : String)

/-- The host state and the log of the interactions so far. -/
structure World (σ ε : Type) where
  state : σ
  log : List (Event ε)

/-- A Go computation over `syscall/js`: it runs against a host, from a world,
and ends with a value or a panic, and a new world. -/
def Exec (σ ε α : Type) : Type :=
  Host σ ε → World σ ε → Except (Panic ε) α × World σ ε

/-- Sequencing: a panic aborts what follows, the world is kept. -/
def Exec.bind {σ ε α β : Type} (m : Exec σ ε α) (f : α → Exec σ ε β) : Exec σ ε β :=
  fun h w =>
    match m h w with
    | (.ok a, w1) => f a h w1
    | (.error e, w1) => (.error e, w1)

instance {σ ε : Type} : Monad (Exec σ ε) where
  pure a := fun _ w => (.ok a, w)
  bind := Exec.bind

/-- A host outcome as a Go outcome: a host failure becomes a panic carrying
the host's error. -/
def liftHost {ε : Type} : Except ε Value → Except (Panic ε) Value
  | .ok v => .ok v
  | .error e => .error (.host e)

/-- The Go call `v.Get(p)`.  It panics if `v` is not a JavaScript object,
before anything is asked of the host; otherwise it is one property read,
recorded in the log. -/
def Value.Get {σ ε : Type} (v : Value) (p : String) : Exec σ ε Value :=
  fun h w =>
    if v.typeOf.isObject = false then
      (.error (.valueError "Value.Get" v.typeOf), w)
    else
      let r := h.get w.state v p
      (liftHost r.1, ⟨r.2, w.log ++ [Event.get v p r.1]⟩)

/-- The message of `Value.Call` on a property that is not a function. -/
def notAFunction (m : String) (t : JSType) : String :=
  "syscall/js: Value.Call: property " ++ m ++ " is not a function, got " ++ t.String

/-- The Go call `v.Call(m, args...)`.  The method call goes to the host at
once and is recorded in the log.  Only when it fails does `Call` look at what
it was given: it panics with a `ValueError` if `v` is not an object; if not,
it reads the property `m` with `v.Get(m)` and panics with a message when that
is not a function, and with the error of the call when it is. -/
def Value.Call {σ ε : Type} (v : Value) (m : String) (args : List Value) : Exec σ ε Value :=
  fun h w =>
    let r := h.call w.state v m args
    let w1 : World σ ε := ⟨r.2, w.log ++ [Event.call v m args r.1]⟩
    match r.1 with
    | .ok res => (.ok res, w1)
    | .error err =>
      if v.typeOf.isObject = false then
        (.error (.valueError "Value.Call" v.typeOf), w1)
      else
        match Value.Get v m h w1 with
        | (.ok property, w2) =>
          if property.typeOf ≠ JSType.TypeFunction then
            (.error (.message (notAFunction m property.typeOf)), w2)
          else (.error (.host err), w2)
        | (.error e, w2) => (.error e, w2)

/-- The helper `v.float(method)` of `syscall/js`: panics with a `ValueError`
unless `v` is a number. -/
def Value.float {σ ε : Type} (v : Value) (method : String) : Exec σ ε Float64 :=
  fun _ w =>
    match v with
    | .number x => (.ok x, w)
    | _ => (.error (.valueError method v.typeOf), w)

/-- The Go call `v.Float()`. -/
def Value.Float {σ ε : Type} (v : Value) : Exec σ ε Float64 :=
  v.float "Value.Float"

/-- Go's conversion `int(f)` on js/wasm, where `int` has 64 bits: the fraction
is discarded (truncation towards zero); a value with no `int` is left to the
platform. -/
def Host.toInt {σ ε : Type} (h : Host σ ε) (f : Float64) : Int :=
  match f with
  | .finite num scale =>
    let t := Int.tdiv num (2 ^ scale)
    if -(2 ^ 63) ≤ t ∧ t < 2 ^ 63 then t else h.intOutOfRange f
  | _ => h.intOutOfRange f

/-- The Go call `v.Int()`, that is `int(v.float("Value.Int"))`. -/
def Value.Int {σ ε : Type} (v : Value) : Exec σ ε Int :=
  fun h w =>
    match Value.float v "Value.Int" h w with
    | (.ok f, w1) => (.ok (h.toInt f), w1)
    | (.error e, w1) => (.error e, w1)

/-- The string `v.String()` returns: the string itself for a string, and a
bracketed description of the type for anything else; it never panics. -/
def Value.stringOf {σ ε : Type} (h : Host σ ε) : Value → String
  | .string s => s
  | .undefined => "<undefined>"
  | .null => "<null>"
  | .boolean b => "<boolean: " ++ (if b then "true" else "false") ++ ">"
  | .number x => "<number: " ++ h.numberString x ++ ">"
  | .symbol _ => "<symbol>"
  | .object _ => "<object>"
  | .function _ => "<function>"

/-- The Go call `v.String()`. -/
def Value.String {σ ε : Type} (v : Value) : Exec σ ε String :=
  fun h w => (.ok (Value.stringOf h v), w)

end js

namespace audio

open js

/-- The Go struct `AudioNode`, which embeds a `js.Value`. -/
structure AudioNode where
  Value : js.Value
  deriving DecidableEq

/-- The Go struct `DestinationNode`, which embeds an `AudioNode`. -/
structure DestinationNode where
  AudioNode : AudioNode
  deriving DecidableEq

/-- The Go struct `AnalyserNode`. -/
structure AnalyserNode where
  AudioNode : AudioNode
  deriving DecidableEq

/-- The Go struct `BiquadFilterNode`. -/
structure BiquadFilterNode where
  AudioNode : AudioNode
  deriving DecidableEq

/-- The Go struct `GainNode`. -/
structure GainNode where
  AudioNode : AudioNode
  deriving DecidableEq

/-- The Go struct `OscillatorNode`. -/
structure OscillatorNode where
  AudioNode : AudioNode
  deriving DecidableEq

/-- The Go struct `MediaStreamSourceNode`. -/
structure MediaStreamSourceNode where
  AudioNode : AudioNode
  deriving DecidableEq

/-- The Go type `MediaStream`, declared elsewhere in the package; all that is
used of it is the host value its method `JSValue()` returns. -/
structure MediaStream where
  JSValue : js.Value
  deriving DecidableEq

/-- The Go type `AudioContextState`, a string type. -/
structure AudioContextState where
  val : String
  deriving DecidableEq, Repr

/-- The constant `AudioContextStateSuspended`. -/
def AudioContextStateSuspended : AudioContextState := AudioContextState.mk "suspended"

/-- The constant `AudioContextStateRunning`. -/
def AudioContextStateRunning : AudioContextState := AudioContextState.mk "running"

/-- The constant `AudioContextStateClosed`. -/
def AudioContextStateClosed : AudioContextState := AudioContextState.mk "closed"

/-- The Go struct `AudioContext`, which embeds the `js.Value` of the host's
audio context. -/
structure AudioContext where
  Value : js.Value
  deriving DecidableEq

variable {σ ε : Type}

/-- The getter `CurrentTime`: `context.Get("currentTime").Float()`. -/
def AudioContext.CurrentTime (context : AudioContext) : Exec σ ε Float64 := do
  let v ← context.Value.Get "currentTime"
  v.Float

/-- The getter `Destination`. -/
def AudioContext.Destination (context : AudioContext) : Exec σ ε DestinationNode := do
  let node := AudioNode.mk (← context.Value.Get "destination")
  return DestinationNode.mk node

/-- The getter `SampleRate`: `context.Get("sampleRate").Int()`. -/
def AudioContext.SampleRate (context : AudioContext) : Exec σ ε Int := do
  let v ← context.Value.Get "sampleRate"
  v.Int

/-- The getter `State`: `AudioContextState(context.Get("state").String())`. -/
def AudioContext.State (context : AudioContext) : Exec σ ε AudioContextState := do
  let v ← context.Value.Get "state"
  let s ← v.String
  return AudioContextState.mk s

/-- The method `Analyser`. -/
def AudioContext.Analyser (context : AudioContext) : Exec σ ε AnalyserNode := do
  let value ← context.Value.Call "createAnalyser" []
  let node := AudioNode.mk value
  return AnalyserNode.mk node

/-- The method `BiquadFilter`. -/
def AudioContext.BiquadFilter (context : AudioContext) : Exec σ ε BiquadFilterNode := do
  let value ← context.Value.Call "createBiquadFilter" []
  let node := AudioNode.mk value
  return BiquadFilterNode.mk node

/-- The method `Gain`. -/
def AudioContext.Gain (context : AudioContext) : Exec σ ε GainNode := do
  let value ← context.Value.Call "createGain" []
  let node := AudioNode.mk value
  return GainNode.mk node

/-- The method `Oscillator`. -/
def AudioContext.Oscillator (context : AudioContext) : Exec σ ε OscillatorNode := do
  let value ← context.Value.Call "createOscillator" []
  let node := AudioNode.mk value
  return OscillatorNode.mk node

/-- The method `MediaStreamSource`. -/
def AudioContext.MediaStreamSource (context : AudioContext) (stream : MediaStream) :
    Exec σ ε MediaStreamSourceNode := do
  let value ← context.Value.Call "createMediaStreamSource" [stream.JSValue]
  let node := AudioNode.mk value
  return MediaStreamSourceNode.mk node

/-- The method `Resume`: the value of the call is dropped. -/
def AudioContext.Resume (context : AudioContext) : Exec σ ε Unit := do
  let _ ← context.Value.Call "resume" []
  return ()

/-! Running a method several times, as a client loop does. -/

/-- The Go loop that runs `m` one time after the other, `n` times, and
collects what each run returned; a panic of one run ends the loop. -/
def times {α : Type} (m : Exec σ ε α) : Nat → Exec σ ε (List α)
  | 0 => pure []
  | n + 1 => do
    let a ← m
    let rest ← times m n
    pure (a :: rest)

/-- Two calls of `CurrentTime` on the same context, one after the other. -/
def AudioContext.CurrentTimeTwice (context : AudioContext) :
    Exec σ ε (Float64 × Float64) := do
  let earlier ← context.CurrentTime
  let later ← context.CurrentTime
  return (earlier, later)

/-! Vocabulary of the statements. -/

/-- The number a value holds, if it is a number. -/
def asNumber : js.Value → Option Float64
  | .number x => some x
  | _ => none

/-- The result `a`, or the panic `p` when there is none. -/
def orPanic {α : Type} (a : Option α) (p : Panic ε) : Except (Panic ε) α :=
  match a with
  | some x => .ok x
  | none => .error p

/-- The outcome of a getter from the outcome of its read: a value read is
turned into the result with `conv`, or into the panic `refused` where `conv`
gives nothing; a failure of the read is passed on. -/
def converted {α : Type} (conv : js.Value → Option α) (refused : js.Value → Panic ε) :
    Except ε js.Value → Except (Panic ε) α
  | .ok v => orPanic (conv v) (refused v)
  | .error e => .error (.host e)

/-- Running `m` from `w` makes one interaction with the host and no other:
the read of the property `property` of `obj`; the host is left as that read
left it. -/
def IssuesOnlyGet {α : Type} (m : Exec σ ε α) (h : Host σ ε) (w : World σ ε)
    (obj : js.Value) (property : String) : Prop :=
  (m h w).2.state = (h.get w.state obj property).2 ∧
  (m h w).2.log = w.log ++ [Event.get obj property (h.get w.state obj property).1]

/-- What a getter does with the host, run from `w`: it never calls a method;
on a handle that is an object or a function it makes one interaction and no
other, the read of `property`; on any other handle it asks the host nothing
and panics with the `ValueError` of `Value.Get`. -/
def ReadsOnce {α : Type} (m : Exec σ ε α) (h : Host σ ε) (w : World σ ε)
    (obj : js.Value) (property : String) : Prop :=
  methodCalls (m h w).2.log = methodCalls w.log ∧
  (if obj.typeOf.isObject = true then IssuesOnlyGet m h w obj property
    else m h w = (.error (.valueError "Value.Get" obj.typeOf), w))

/-- What a method that forwards the call `obj.method(args)` and wraps its
value with `wrap` does, run from `w`.  In every case the log gains one method
call, that one.  When the call returns `v`, it is the only interaction, the
host is left as the call left it, and the method returns `wrap v`.  When the
call fails, the method panics; the only other interaction is then the read of
the property `method`, made after the call and only on a handle that is an
object or a function. -/
def ForwardsCall {α : Type} (m : Exec σ ε α) (h : Host σ ε) (w : World σ ε)
    (obj : js.Value) (method : String) (args : List js.Value) (wrap : js.Value → α) : Prop :=
  methodCalls (m h w).2.log =
    methodCalls w.log ++ [Event.call obj method args (h.call w.state obj method args).1] ∧
  (∀ v, (h.call w.state obj method args).1 = .ok v →
    m h w = (.ok (wrap v),
      ⟨(h.call w.state obj method args).2, w.log ++ [Event.call obj method args (.ok v)]⟩)) ∧
  (∀ e, (h.call w.state obj method args).1 = .error e →
    (∃ p, (m h w).1 = .error p) ∧
    (m h w).2 =
      (if obj.typeOf.isObject = true then
        ⟨(h.get (h.call w.state obj method args).2 obj method).2,
          w.log ++ [Event.call obj method args (.error e),
            Event.get obj method (h.get (h.call w.state obj method args).2 obj method).1]⟩
      else
        ⟨(h.call w.state obj method args).2, w.log ++ [Event.call obj method args (.error e)]⟩))

/-- The outcome `out` of an operation fails exactly when the outcome `r` of
the host interaction it forwards fails, and then with the host's own error. -/
def TransparentFailure {α : Type} (out : Except (Panic ε) α) (r : Except ε js.Value) : Prop :=
  ∀ p, out = .error p ↔ ∃ e, r = .error e ∧ p = Panic.host e

/-- The outcome `out` of a getter on the handle `obj` fails in two cases only:
the handle is neither an object nor a function, and then with the `ValueError`
of `Value.Get`; or the read `r` fails, and then with the host's own error. -/
def FailureOfGet {α : Type} (out : Except (Panic ε) α) (obj : js.Value)
    (r : Except ε js.Value) : Prop :=
  ∀ p, out = .error p ↔
    (obj.typeOf.isObject = false ∧ p = Panic.valueError "Value.Get" obj.typeOf) ∨
    (obj.typeOf.isObject = true ∧ ∃ e, r = .error e ∧ p = Panic.host e)

/-- The outcome `out` of a getter that converts the property to a number fails
in three cases only: the two of `FailureOfGet`; or the read gives a value that
is not a number, and then with the `ValueError` of the conversion `method`. -/
def FailureOfReadOrConversion {α : Type} (out : Except (Panic ε) α) (obj : js.Value)
    (r : Except ε js.Value) (method : String) : Prop :=
  ∀ p, out = .error p ↔
    (obj.typeOf.isObject = false ∧ p = Panic.valueError "Value.Get" obj.typeOf) ∨
    (obj.typeOf.isObject = true ∧ ∃ e, r = .error e ∧ p = Panic.host e) ∨
    (obj.typeOf.isObject = true ∧ ∃ v, r = .ok v ∧ v.typeOf ≠ JSType.TypeNumber ∧
      p = Panic.valueError method v.typeOf)

/-- The outcome `out` of a method that forwards the call `obj.method(...)`
fails exactly when the call `r` fails.  The panic is the `ValueError` of
`Value.Call` on a handle that is neither an object nor a function.  On an
object it depends on the read `g` of the property `method` made after the
failure: the error of that read if it fails, the message of `Value.Call` if
the property is not a function, and the error the host raised for the call if
it is. -/
def FailureOfCall {α : Type} (out : Except (Panic ε) α) (obj : js.Value) (method : String)
    (r g : Except ε js.Value) : Prop :=
  ∀ p, out = .error p ↔ ∃ err, r = .error err ∧
    ((obj.typeOf.isObject = false ∧ p = Panic.valueError "Value.Call" obj.typeOf) ∨
     (obj.typeOf.isObject = true ∧ ∃ e, g = .error e ∧ p = Panic.host e) ∨
     (obj.typeOf.isObject = true ∧ ∃ property, g = .ok property ∧
        property.typeOf ≠ JSType.TypeFunction ∧
        p = Panic.message (notAFunction method property.typeOf)) ∨
     (obj.typeOf.isObject = true ∧ ∃ property, g = .ok property ∧
        property.typeOf = JSType.TypeFunction ∧ p = Panic.host err))

/-- The answers of the host to the call `obj.method(args)` made again and
again from the state `s`, at most `n` times and up to the first failure, and
the state after the last of them. -/
def hostCallSeq (h : Host σ ε) (obj : js.Value) (method : String) (args : List js.Value) :
    Nat → σ → List (Except ε js.Value) × σ
  | 0, s => ([], s)
  | n + 1, s =>
    match (h.call s obj method args).1 with
    | .ok v =>
      (.ok v :: (hostCallSeq h obj method args n (h.call s obj method args).2).1,
        (hostCallSeq h obj method args n (h.call s obj method args).2).2)
    | .error e => ([.error e], (h.call s obj method args).2)

/-- The answers of the host to the read of `property` of `obj` made again and
again from the state `s`, at most `n` times and up to the first answer that is
a failure or a value the getter cannot convert (`conv` gives `none`), and the
state after the last of them. -/
def hostReadSeq {α : Type} (h : Host σ ε) (obj : js.Value) (property : String)
    (conv : js.Value → Option α) : Nat → σ → List (Except ε js.Value) × σ
  | 0, s => ([], s)
  | n + 1, s =>
    match (h.get s obj property).1 with
    | .ok v =>
      if (conv v).isSome = true then
        (.ok v :: (hostReadSeq h obj property conv n (h.get s obj property).2).1,
          (hostReadSeq h obj property conv n (h.get s obj property).2).2)
      else ([.ok v], (h.get s obj property).2)
    | .error e => ([.error e], (h.get s obj property).2)

/-- Running `n` times a method that forwards the call `obj.method(args)`.  The
method calls the log gains are the answers of the host to that call, made
again and again up to the first failure: one call per run, none repeated and
none left out.  When the host answers `n` times with the values `vs`, these
`n` calls are all the interactions, and the k-th result is the k-th value,
wrapped. -/
def RepeatsCall {α : Type} (m : Exec σ ε α) (n : Nat) (h : Host σ ε) (w : World σ ε)
    (obj : js.Value) (method : String) (args : List js.Value) (wrap : js.Value → α) : Prop :=
  methodCalls (times m n h w).2.log =
    methodCalls w.log ++
      (hostCallSeq h obj method args n w.state).1.map (Event.call obj method args) ∧
  ∀ vs : List js.Value, (hostCallSeq h obj method args n w.state).1 = vs.map .ok →
    vs.length = n ∧
    times m n h w = (.ok (vs.map wrap),
      ⟨(hostCallSeq h obj method args n w.state).2,
        w.log ++ vs.map (fun v => Event.call obj method args (.ok v))⟩)

/-- Running `n` times a getter of `property`, which turns the value read into
its result with `conv`, on a handle that is an object or a function.  The
interactions are the reads of that property, made again and again up to the
first one that fails or cannot be converted: one read per run, and nothing
else.  When the host answers `n` times with the values `vs` and `conv` turns
them into `rs`, the k-th result is the k-th of `rs`. -/
def RepeatsGet {α : Type} (m : Exec σ ε α) (n : Nat) (h : Host σ ε) (w : World σ ε)
    (obj : js.Value) (property : String) (conv : js.Value → Option α) : Prop :=
  (times m n h w).2 =
    ⟨(hostReadSeq h obj property conv n w.state).2,
      w.log ++ (hostReadSeq h obj property conv n w.state).1.map (Event.get obj property)⟩ ∧
  ∀ (vs : List js.Value) (rs : List α),
    (hostReadSeq h obj property conv n w.state).1 = vs.map .ok →
    vs.map conv = rs.map some →
    rs.length = n ∧ (times m n h w).1 = .ok rs

/-- The state is one of the three named constants. -/
def AudioContextState.isNamed (s : AudioContextState) : Prop :=
  s = AudioContextStateSuspended ∨ s = AudioContextStateRunning ∨ s = AudioContextStateClosed

instance (s : AudioContextState) : Decidable s.isNamed := by
  unfold AudioContextState.isNamed; infer_instance

/-! Concrete hosts, for examples. -/

/-- A host given by a table of properties: at step `s` the property `p` of any
object reads `props s p`; each of the six methods of the audio API, called on
an object, returns a fresh object, and any other call fails, as does any read
on a value that is not an object.  Every interaction is one step. -/
def tableHost (props : Nat → String → Except String js.Value) : Host Nat String where
  get := fun s obj p =>
    if obj.typeOf.isObject = true then (props s p, s + 1) else (.error "TypeError", s + 1)
  call := fun s obj m _ =>
    (if obj.typeOf.isObject = true ∧
        (m = "createAnalyser" ∨ m = "createBiquadFilter" ∨ m = "createGain" ∨
          m = "createOscillator" ∨ m = "createMediaStreamSource" ∨ m = "resume")
      then .ok (.object (100 + s)) else .error "TypeError", s + 1)
  numberString := fun _ => "NaN"
  intOutOfRange := fun _ => -(2 ^ 63)
  get_object := by
    intro s v p val hval
    cases hobj : v.typeOf.isObject
    · simp [hobj] at hval
    · rfl

/-- A host whose objects have no property and no method: every read of an
object gives `undefined` and every call fails with a TypeError. -/
def plainHost : Host Nat String where
  get := fun s obj _ =>
    if obj.typeOf.isObject = true then (.ok .undefined, s + 1) else (.error "TypeError", s + 1)
  call := fun s _ _ _ => (.error "TypeError", s + 1)
  numberString := fun _ => "NaN"
  intOutOfRange := fun _ => -(2 ^ 63)
  get_object := by
    intro s v p val hval
    cases hobj : v.typeOf.isObject
    · simp [hobj] at hval
    · rfl

/-- The properties of a running context at 44100 Hz whose clock shows the
step number. -/
def runningProps : Nat → String → Except String js.Value := fun s p =>
  if p = "currentTime" then .ok (.number (.finite s 0))
  else if p = "destination" then .ok (.object 1)
  else if p = "sampleRate" then .ok (.number (.finite 44100 0))
  else if p = "state" then .ok (.string "running")
  else .ok .undefined

/-- The properties of a context that the browser has interrupted. -/
def interruptedProps : Nat → String → Except String js.Value := fun _ p =>
  if p = "state" then .ok (.string "interrupted") else .ok .undefined

/-- The properties of an object that has none: every read gives `undefined`. -/
def bareProps : Nat → String → Except String js.Value := fun _ _ => .ok .undefined

/-- The properties of a context running at 44100.5 Hz. -/
def fractionalProps : Nat → String → Except String js.Value := fun _ p =>
  if p = "sampleRate" then .ok (.number (.finite 88201 1)) else .ok .undefined

/-- The properties of an object whose `currentTime` reads 5, then 3, then 1
and so on downwards. -/
def rewindingProps : Nat → String → Except String js.Value := fun s p =>
  if p = "currentTime" then .ok (.number (.finite (5 - 2 * (s : Int)) 0)) else .ok .undefined

/-- The world before any interaction. -/
def World.initial : World Nat String := ⟨0, []⟩

/-- A context over the host object 7. -/
def AudioContext.sample : AudioContext := ⟨.object 7⟩

/-- The zero value `AudioContext{}` of Go: its handle is `undefined`. -/
def AudioContext.zero : AudioContext := ⟨.undefined⟩

/-! ## How each operation runs -/

/-- A read on an object or a function. -/
theorem Get_run_object (v : js.Value) (p : String) (h : Host σ ε) (w : World σ ε)
    (hobj : v.typeOf.isObject = true) :
    Value.Get v p h w =
      (liftHost (h.get w.state v p).1,
        ⟨(h.get w.state v p).2, w.log ++ [Event.get v p (h.get w.state v p).1]⟩) := by
  simp [Value.Get, hobj]

/-- A read on anything else. -/
theorem Get_run_other (v : js.Value) (p : String) (h : Host σ ε) (w : World σ ε)
    (hobj : v.typeOf.isObject = false) :
    Value.Get v p h w = (.error (.valueError "Value.Get" v.typeOf), w) := by
  simp [Value.Get, hobj]

/-- A call that the host answers with a value. -/
theorem Call_run_ok (v : js.Value) (m : String) (args : List js.Value) (h : Host σ ε)
    (w : World σ ε) (res : js.Value) (hres : (h.call w.state v m args).1 = .ok res) :
    Value.Call v m args h w =
      (.ok res, ⟨(h.call w.state v m args).2, w.log ++ [Event.call v m args (.ok res)]⟩) := by
  simp only [Value.Call, hres]

/-- A failed call on a handle that is not an object. -/
theorem Call_run_error_other (v : js.Value) (m : String) (args : List js.Value) (h : Host σ ε)
    (w : World σ ε) (err : ε) (herr : (h.call w.state v m args).1 = .error err)
    (hobj : v.typeOf.isObject = false) :
    Value.Call v m args h w =
      (.error (.valueError "Value.Call" v.typeOf),
        ⟨(h.call w.state v m args).2, w.log ++ [Event.call v m args (.error err)]⟩) := by
  simp [Value.Call, herr, hobj]

/-- A failed call on an object: the property is read, and the panic depends
on what the read gives. -/
theorem Call_run_error_object (v : js.Value) (m : String) (args : List js.Value)
    (h : Host σ ε) (w : World σ ε) (err : ε)
    (herr : (h.call w.state v m args).1 = .error err) (hobj : v.typeOf.isObject = true) :
    Value.Call v m args h w =
      ((match (h.get (h.call w.state v m args).2 v m).1 with
          | .ok property =>
            if property.typeOf ≠ JSType.TypeFunction then
              .error (.message (notAFunction m property.typeOf))
            else .error (.host err)
          | .error e => .error (.host e)),
        ⟨(h.get (h.call w.state v m args).2 v m).2,
          w.log ++ [Event.call v m args (.error err),
            Event.get v m (h.get (h.call w.state v m args).2 v m).1]⟩) := by
  simp only [Value.Call, herr, hobj, Bool.true_eq_false, if_false]
  rw [Get_run_object v m h _ hobj]
  simp only
  rcases hg : (h.get (h.call w.state v m args).2 v m).1 with e | property
  · simp [liftHost]
  · by_cases hf : property.typeOf = JSType.TypeFunction <;> simp [liftHost, hf]

/-- An operation followed by wrapping: the interactions are those of the
operation and the result is its result, wrapped. -/
theorem bind_pure_run {α β : Type} (m : Exec σ ε α) (f : α → β) (h : Host σ ε)
    (w : World σ ε) :
    (bind m (fun a => (pure (f a) : Exec σ ε β))) h w = (Except.map f (m h w).1, (m h w).2) := by
  simp only [bind, Exec.bind, pure]
  rcases m h w with ⟨e | a, w1⟩ <;> rfl

/-- A property read leaves the method calls of the log as they were. -/
theorem methodCalls_append_get (log : List (Event ε)) (obj : js.Value) (property : String)
    (r : Except ε js.Value) :
    methodCalls (log ++ [Event.get obj property r]) = methodCalls log := by
  simp [methodCalls, List.filter_append, Event.isCall]

/-- A method call is a method call of the log. -/
theorem methodCalls_append_call (log : List (Event ε)) (obj : js.Value) (method : String)
    (args : List js.Value) (r : Except ε js.Value) :
    methodCalls (log ++ [Event.call obj method args r]) =
      methodCalls log ++ [Event.call obj method args r] := by
  simp [methodCalls, List.filter_append, Event.isCall]

/-- A method call followed by wrapping forwards the call. -/
theorem forwardsCall_of_wrap {α : Type} (m : Exec σ ε α) (wrap : js.Value → α)
    (obj : js.Value) (method : String) (args : List js.Value)
    (hm : m = bind (Value.Call obj method args) (fun v => (pure (wrap v) : Exec σ ε α)))
    (h : Host σ ε) (w : World σ ε) : ForwardsCall m h w obj method args wrap := by
  subst hm
  unfold ForwardsCall
  rw [bind_pure_run]
  rcases hr : (h.call w.state obj method args).1 with err | res
  · have hrest : ∀ v, ¬ (Except.error err : Except ε js.Value) = .ok v := by
      intro v hv; cases hv
    cases hobj : obj.typeOf.isObject
    · rw [Call_run_error_other obj method args h w err hr hobj]
      refine ⟨methodCalls_append_call _ _ _ _ _, fun v hv => absurd hv (hrest v), ?_⟩
      intro e he
      cases he
      exact ⟨⟨_, rfl⟩, by simp⟩
    · rw [Call_run_error_object obj method args h w err hr hobj]
      refine ⟨?_, fun v hv => absurd hv (hrest v), ?_⟩
      · have happ : w.log ++ [Event.call obj method args (.error err),
            Event.get obj method (h.get (h.call w.state obj method args).2 obj method).1] =
            (w.log ++ [Event.call obj method args (.error err)]) ++
              [Event.get obj method (h.get (h.call w.state obj method args).2 obj method).1] := by
          simp
        simp only
        rw [happ, methodCalls_append_get, methodCalls_append_call]
      · intro e he
        cases he
        refine ⟨?_, by simp⟩
        rcases (h.get (h.call w.state obj method args).2 obj method).1 with e2 | property
        · exact ⟨_, rfl⟩
        · by_cases hf : property.typeOf = JSType.TypeFunction
          · exact ⟨.host err, by simp [hf, Except.map]⟩
          · exact ⟨.message (notAFunction method property.typeOf), by simp [hf, Except.map]⟩
  · rw [Call_run_ok obj method args h w res hr]
    refine ⟨methodCalls_append_call _ _ _ _ _, ?_, ?_⟩
    · intro v hv
      cases hv
      rfl
    · intro e he
      cases he

/-- A getter on a handle that is not an object: nothing is asked of the host. -/
theorem getter_run_other {α : Type} (k : js.Value → Exec σ ε α) (obj : js.Value)
    (property : String) (h : Host σ ε) (w : World σ ε) (hobj : obj.typeOf.isObject = false) :
    (bind (Value.Get obj property) k) h w =
      (.error (.valueError "Value.Get" obj.typeOf), w) := by
  simp only [bind, Exec.bind, Get_run_other obj property h w hobj]

/-- A getter on an object: one read, then the conversion. -/
theorem getter_run_object {α : Type} (k : js.Value → Exec σ ε α) (conv : js.Value → Option α)
    (refused : js.Value → Panic ε) (obj : js.Value) (property : String) (h : Host σ ε)
    (hk : ∀ v w1, k v h w1 = (orPanic (conv v) (refused v), w1))
    (w : World σ ε) (hobj : obj.typeOf.isObject = true) :
    (bind (Value.Get obj property) k) h w =
      (converted conv refused (h.get w.state obj property).1,
        ⟨(h.get w.state obj property).2,
          w.log ++ [Event.get obj property (h.get w.state obj property).1]⟩) := by
  simp only [bind, Exec.bind, Get_run_object obj property h w hobj]
  rcases (h.get w.state obj property).1 with e | v
  · rfl
  · simp only [liftHost, hk, converted]

theorem Float_run (v : js.Value) (h : Host σ ε) (w : World σ ε) :
    Value.Float v h w = (orPanic (asNumber v) (.valueError "Value.Float" v.typeOf), w) := by
  cases v <;> rfl

theorem Int_run (v : js.Value) (h : Host σ ε) (w : World σ ε) :
    Value.Int v h w =
      (orPanic ((asNumber v).map h.toInt) (.valueError "Value.Int" v.typeOf), w) := by
  cases v <;> rfl

theorem CurrentTime_run (context : AudioContext) (h : Host σ ε) (w : World σ ε)
    (hobj : context.Value.typeOf.isObject = true) :
    context.CurrentTime h w =
      (converted asNumber (fun v => .valueError "Value.Float" v.typeOf)
          (h.get w.state context.Value "currentTime").1,
        ⟨(h.get w.state context.Value "currentTime").2,
          w.log ++ [Event.get context.Value "currentTime"
            (h.get w.state context.Value "currentTime").1]⟩) :=
  getter_run_object _ _ _ _ _ h (fun v w1 => Float_run v h w1) w hobj

theorem SampleRate_run (context : AudioContext) (h : Host σ ε) (w : World σ ε)
    (hobj : context.Value.typeOf.isObject = true) :
    context.SampleRate h w =
      (converted (fun v => (asNumber v).map h.toInt) (fun v => .valueError "Value.Int" v.typeOf)
          (h.get w.state context.Value "sampleRate").1,
        ⟨(h.get w.state context.Value "sampleRate").2,
          w.log ++ [Event.get context.Value "sampleRate"
            (h.get w.state context.Value "sampleRate").1]⟩) :=
  getter_run_object _ _ _ _ _ h (fun v w1 => Int_run v h w1) w hobj

/-- State on an object.  The conversion to a string never refuses, so the
panic named for that case is never raised. -/
theorem State_run (context : AudioContext) (h : Host σ ε) (w : World σ ε)
    (hobj : context.Value.typeOf.isObject = true) :
    context.State h w =
      (converted (fun v => some (AudioContextState.mk (Value.stringOf h v)))
          (fun v => .valueError "Value.String" v.typeOf)
          (h.get w.state context.Value "state").1,
        ⟨(h.get w.state context.Value "state").2,
          w.log ++ [Event.get context.Value "state"
            (h.get w.state context.Value "state").1]⟩) :=
  getter_run_object _ _ _ _ _ h (fun _ _ => rfl) w hobj

/-- Destination on an object.  Wrapping never refuses, so the panic named for
that case is never raised. -/
theorem Destination_run (context : AudioContext) (h : Host σ ε) (w : World σ ε)
    (hobj : context.Value.typeOf.isObject = true) :
    context.Destination h w =
      (converted (fun v => some (DestinationNode.mk (AudioNode.mk v)))
          (fun v => .valueError "Value.Get" v.typeOf)
          (h.get w.state context.Value "destination").1,
        ⟨(h.get w.state context.Value "destination").2,
          w.log ++ [Event.get context.Value "destination"
            (h.get w.state context.Value "destination").1]⟩) :=
  getter_run_object _ _ _ _ _ h (fun _ _ => rfl) w hobj

/-- A getter that runs as one read and a conversion reads once. -/
theorem readsOnce_of_run {α : Type} (m : Exec σ ε α) (conv : js.Value → Option α)
    (refused : js.Value → Panic ε) (obj : js.Value) (property : String) (h : Host σ ε)
    (w : World σ ε)
    (hobject : obj.typeOf.isObject = true → m h w =
      (converted conv refused (h.get w.state obj property).1,
        ⟨(h.get w.state obj property).2,
          w.log ++ [Event.get obj property (h.get w.state obj property).1]⟩))
    (hother : obj.typeOf.isObject = false →
      m h w = (.error (.valueError "Value.Get" obj.typeOf), w)) :
    ReadsOnce m h w obj property := by
  unfold ReadsOnce
  cases hobj : obj.typeOf.isObject
  · rw [hother hobj]
    exact ⟨rfl, by simp⟩
  · rw [hobject hobj]
    refine ⟨methodCalls_append_get _ _ _ _, ?_⟩
    simp only [if_true]
    rw [IssuesOnlyGet, hobject hobj]
    exact ⟨rfl, rfl⟩

/-! ## The factory methods -/

/-- C1, as the code has it: each of Analyser, BiquadFilter, Gain and
Oscillator issues one method call on the context handle and no other, named
"createAnalyser", "createBiquadFilter", "createGain" and "createOscillator",
with no argument.  When that call returns, it is the only interaction with the
host and the wrapper returned holds the value of the call.  When that call
fails, the method panics, and the only other interaction is the read of the
property of the same name that Value.Call makes after the failure, on a handle
that is an object or a function. -/
theorem factories_forward_one_call (h : Host σ ε) (w : World σ ε) (context : AudioContext) :
    ForwardsCall context.Analyser h w context.Value "createAnalyser" []
      (fun v => AnalyserNode.mk (AudioNode.mk v)) ∧
    ForwardsCall context.BiquadFilter h w context.Value "createBiquadFilter" []
      (fun v => BiquadFilterNode.mk (AudioNode.mk v)) ∧
    ForwardsCall context.Gain h w context.Value "createGain" []
      (fun v => GainNode.mk (AudioNode.mk v)) ∧
    ForwardsCall context.Oscillator h w context.Value "createOscillator" []
      (fun v => OscillatorNode.mk (AudioNode.mk v)) :=
  ⟨forwardsCall_of_wrap _ _ _ _ _ rfl h w, forwardsCall_of_wrap _ _ _ _ _ rfl h w,
    forwardsCall_of_wrap _ _ _ _ _ rfl h w, forwardsCall_of_wrap _ _ _ _ _ rfl h w⟩

/-- The theorem above at a context of a host with the methods of the audio
API: Gain returns the node of the object the host returned, after one call. -/
theorem factories_forward_one_call_witness :
    ((tableHost runningProps).call World.initial.state AudioContext.sample.Value
        "createGain" []).1 = .ok (.object 100) ∧
    AudioContext.sample.Gain (tableHost runningProps) World.initial =
      (.ok (GainNode.mk (AudioNode.mk (.object 100))),
        ⟨1, [Event.call (.object 7) "createGain" [] (.ok (.object 100))]⟩) :=
  ⟨rfl, (factories_forward_one_call (tableHost runningProps) World.initial
    AudioContext.sample).2.2.1.2.1 (.object 100) rfl⟩

/-- C1 fails as stated: over an object without a "createAnalyser" method the
call fails, and Analyser() then makes a second interaction, a read of the
property "createAnalyser", before it panics with the message of Value.Call. -/
theorem Analyser_reads_after_failed_call :
    AudioContext.sample.Analyser plainHost World.initial =
      (.error (.message
          "syscall/js: Value.Call: property createAnalyser is not a function, got undefined"),
        ⟨2, [Event.call (.object 7) "createAnalyser" [] (.error "TypeError"),
          Event.get (.object 7) "createAnalyser" (.ok .undefined)]⟩) ∧
    propertyReads (AudioContext.sample.Analyser plainHost World.initial).2.log =
      [Event.get (.object 7) "createAnalyser" (.ok .undefined)] :=
  ⟨rfl, rfl⟩

/-- C5: MediaStreamSource issues one method call on the context handle and no
other, "createMediaStreamSource", whose only argument is the host value of the
stream as it is.  When that call returns, it is the only interaction with the
host and the node returned holds the value of the call; when it fails, nothing
is returned: the method panics. -/
theorem MediaStreamSource_forwards_one_call (h : Host σ ε) (w : World σ ε)
    (context : AudioContext) (stream : MediaStream) :
    ForwardsCall (context.MediaStreamSource stream) h w context.Value
      "createMediaStreamSource" [stream.JSValue]
      (fun v => MediaStreamSourceNode.mk (AudioNode.mk v)) :=
  forwardsCall_of_wrap _ _ _ _ _ rfl h w

/-- The theorem above at the stream of the host object 9. -/
theorem MediaStreamSource_forwards_one_call_witness :
    ((tableHost runningProps).call World.initial.state AudioContext.sample.Value
        "createMediaStreamSource" [.object 9]).1 = .ok (.object 100) ∧
    AudioContext.sample.MediaStreamSource ⟨.object 9⟩ (tableHost runningProps) World.initial =
      (.ok (MediaStreamSourceNode.mk (AudioNode.mk (.object 100))),
        ⟨1, [Event.call (.object 7) "createMediaStreamSource" [.object 9]
          (.ok (.object 100))]⟩) :=
  ⟨rfl, (MediaStreamSource_forwards_one_call (tableHost runningProps) World.initial
    AudioContext.sample ⟨.object 9⟩).2.1 (.object 100) rfl⟩

/-! ## Resume -/

/-- C10, as the code has it: Resume issues one method call on the context
handle and no other, "resume", with no argument, and reads no property before
it: "state" is never read.  When that call returns, it is the only interaction
with the host, the host is left as the call left it, and Resume returns
nothing, whatever the value of the call.  When that call fails, Resume panics,
and the only other interaction is the read of the property "resume" that
Value.Call makes after the failure, on a handle that is an object or a
function. -/
theorem Resume_forwards_one_call (h : Host σ ε) (w : World σ ε) (context : AudioContext) :
    ForwardsCall context.Resume h w context.Value "resume" [] (fun _ => ()) :=
  forwardsCall_of_wrap _ _ _ _ _ rfl h w

/-- The theorem above at a context of a host with the methods of the audio
API. -/
theorem Resume_forwards_one_call_witness :
    ((tableHost runningProps).call World.initial.state AudioContext.sample.Value
        "resume" []).1 = .ok (.object 100) ∧
    AudioContext.sample.Resume (tableHost runningProps) World.initial =
      (.ok (), ⟨1, [Event.call (.object 7) "resume" [] (.ok (.object 100))]⟩) :=
  ⟨rfl, (Resume_forwards_one_call (tableHost runningProps) World.initial
    AudioContext.sample).2.1 (.object 100) rfl⟩

/-- C10 fails as stated: over an object without a "resume" method the call
fails and Resume() then reads a property, "resume", before it panics. -/
theorem Resume_reads_after_failed_call :
    (AudioContext.sample.Resume plainHost World.initial).2.log =
      [Event.call (.object 7) "resume" [] (.error "TypeError"),
        Event.get (.object 7) "resume" (.ok .undefined)] ∧
    propertyReads (AudioContext.sample.Resume plainHost World.initial).2.log ≠
      propertyReads World.initial.log := by
  refine ⟨rfl, ?_⟩
  intro hEq
  have hlen := congrArg List.length hEq
  revert hlen
  decide

/-! ## The getters -/

/-- C6, as the code has it: none of CurrentTime, Destination, SampleRate and
State calls a method, so the method calls of the log are as before.  On a
context whose handle is an object or a function each makes one interaction
with the host and no other, the read of "currentTime", "destination",
"sampleRate" and "state"; on any other handle, such as that of the zero
AudioContext, it reads nothing and panics with the ValueError of Value.Get.
The node Destination returns holds the value of the "destination"
property. -/
theorem getters_only_read (h : Host σ ε) (w : World σ ε) (context : AudioContext) :
    ReadsOnce context.CurrentTime h w context.Value "currentTime" ∧
    ReadsOnce context.Destination h w context.Value "destination" ∧
    ReadsOnce context.SampleRate h w context.Value "sampleRate" ∧
    ReadsOnce context.State h w context.Value "state" ∧
    ∀ v, (h.get w.state context.Value "destination").1 = .ok v →
      (context.Destination h w).1 = .ok (DestinationNode.mk (AudioNode.mk v)) := by
  refine ⟨readsOnce_of_run _ _ _ _ _ h w (CurrentTime_run context h w)
      (getter_run_other _ _ _ h w),
    readsOnce_of_run _ _ _ _ _ h w (Destination_run context h w) (getter_run_other _ _ _ h w),
    readsOnce_of_run _ _ _ _ _ h w (SampleRate_run context h w) (getter_run_other _ _ _ h w),
    readsOnce_of_run _ _ _ _ _ h w (State_run context h w) (getter_run_other _ _ _ h w), ?_⟩
  intro v hv
  rw [Destination_run context h w (h.get_object _ _ _ _ hv), hv]
  rfl

/-- The theorem above at a running context: Destination reads once and
returns the node of the object the property holds. -/
theorem getters_only_read_witness :
    ((tableHost runningProps).get World.initial.state AudioContext.sample.Value
        "destination").1 = .ok (.object 1) ∧
    (AudioContext.sample.Destination (tableHost runningProps) World.initial).1 =
      .ok (DestinationNode.mk (AudioNode.mk (.object 1))) ∧
    (AudioContext.sample.Destination (tableHost runningProps) World.initial).2.log =
      [Event.get (.object 7) "destination" (.ok (.object 1))] :=
  have hT := getters_only_read (tableHost runningProps) World.initial AudioContext.sample
  ⟨rfl, hT.2.2.2.2 (.object 1) rfl, rfl⟩

/-- C6 fails as stated: on the zero AudioContext, whose handle is undefined,
CurrentTime() reads no property: it panics before the host is asked. -/
theorem CurrentTime_of_zero_reads_nothing :
    AudioContext.zero.CurrentTime (tableHost runningProps) World.initial =
      (.error (.valueError "Value.Get" .TypeUndefined), World.initial) ∧
    propertyReads (AudioContext.zero.CurrentTime (tableHost runningProps)
      World.initial).2.log = [] :=
  ⟨rfl, rfl⟩

/-! ## The state -/

/-- The description `String()` gives of a value that is not a string is none
of the three state names: it starts with an angle bracket. -/
theorem stringOf_named (h : Host σ ε) (v : js.Value)
    (hv : (AudioContextState.mk (Value.stringOf h v)).isNamed) :
    v = .string "suspended" ∨ v = .string "running" ∨ v = .string "closed" := by
  have key : ∀ t : String, "<number: " ++ t ++ ">" ≠ "suspended" ∧
      "<number: " ++ t ++ ">" ≠ "running" ∧ "<number: " ++ t ++ ">" ≠ "closed" := by
    intro t
    refine ⟨?_, ?_, ?_⟩ <;> intro hEq <;>
      · have hd := congrArg String.data hEq
        simp [String.data_append] at hd
  simp only [AudioContextState.isNamed, AudioContextStateSuspended, AudioContextStateRunning,
    AudioContextStateClosed, AudioContextState.mk.injEq] at hv
  cases v with
  | string s => simpa [Value.stringOf] using hv
  | number x =>
    have hk := key (h.numberString x)
    simp only [Value.stringOf] at hv
    rcases hv with hv | hv | hv
    · exact absurd hv hk.1
    · exact absurd hv hk.2.1
    · exact absurd hv hk.2.2
  | boolean b => cases b <;> simp [Value.stringOf] at hv
  | undefined => simp [Value.stringOf] at hv
  | null => simp [Value.stringOf] at hv
  | symbol r => simp [Value.stringOf] at hv
  | object r => simp [Value.stringOf] at hv
  | function r => simp [Value.stringOf] at hv

/-- C2, as the code has it: when the read of "state" gives the value v,
State() returns the state whose string is the string form of v, and that is
one of the three named constants exactly when v is one of the strings
"suspended", "running" and "closed". -/
theorem State_named_iff (h : Host σ ε) (w : World σ ε) (context : AudioContext) (v : js.Value)
    (hv : (h.get w.state context.Value "state").1 = .ok v) :
    (context.State h w).1 = .ok (AudioContextState.mk (Value.stringOf h v)) ∧
    ((AudioContextState.mk (Value.stringOf h v)).isNamed ↔
      (v = .string "suspended" ∨ v = .string "running" ∨ v = .string "closed")) := by
  refine ⟨?_, stringOf_named h v, ?_⟩
  · rw [State_run context h w (h.get_object _ _ _ _ hv), hv]; rfl
  · rintro (rfl | rfl | rfl)
    · exact Or.inl rfl
    · exact Or.inr (Or.inl rfl)
    · exact Or.inr (Or.inr rfl)

/-- The theorem above at a running context. -/
theorem State_named_iff_witness :
    ((tableHost runningProps).get World.initial.state AudioContext.sample.Value "state").1 =
        .ok (.string "running") ∧
    (AudioContext.sample.State (tableHost runningProps) World.initial).1 =
        .ok (AudioContextState.mk "running") ∧
    (AudioContextState.mk "running").isNamed :=
  have hv : ((tableHost runningProps).get World.initial.state AudioContext.sample.Value
      "state").1 = .ok (.string "running") := by
    rfl
  have hT := State_named_iff (tableHost runningProps) World.initial AudioContext.sample
    (.string "running") hv
  ⟨hv, hT.1, hT.2.2 (Or.inr (Or.inl rfl))⟩

/-- C2 fails as stated: over a host whose "state" property holds
"interrupted", State() returns a state that is none of the three constants. -/
theorem State_interrupted_not_named :
    (AudioContext.sample.State (tableHost interruptedProps) World.initial).1 =
        .ok (AudioContextState.mk "interrupted") ∧
    ¬ (AudioContextState.mk "interrupted").isNamed := by
  refine ⟨?_, by decide⟩
  rfl

/-- C3: when the "state" property of the host is the string s, State()
returns the state whose string is s; it is AudioContextStateSuspended,
AudioContextStateRunning or AudioContextStateClosed exactly when s is
"suspended", "running" or "closed"; and the three constants are pairwise
distinct. -/
theorem State_mirrors_host (h : Host σ ε) (w : World σ ε) (context : AudioContext) (s : String)
    (hs : (h.get w.state context.Value "state").1 = .ok (.string s)) :
    (∃ st, (context.State h w).1 = .ok st ∧ st.val = s ∧
      (st = AudioContextStateSuspended ↔ s = "suspended") ∧
      (st = AudioContextStateRunning ↔ s = "running") ∧
      (st = AudioContextStateClosed ↔ s = "closed")) ∧
    AudioContextStateSuspended ≠ AudioContextStateRunning ∧
    AudioContextStateSuspended ≠ AudioContextStateClosed ∧
    AudioContextStateRunning ≠ AudioContextStateClosed := by
  refine ⟨⟨AudioContextState.mk s, ?_, rfl, ?_, ?_, ?_⟩, by decide, by decide, by decide⟩
  · rw [State_run context h w (h.get_object _ _ _ _ hs), hs]; rfl
  · simp [AudioContextStateSuspended]
  · simp [AudioContextStateRunning]
  · simp [AudioContextStateClosed]

/-- The theorem above at a running context. -/
theorem State_mirrors_host_witness :
    ((tableHost runningProps).get World.initial.state AudioContext.sample.Value "state").1 =
        .ok (.string "running") ∧
    ∃ st, (AudioContext.sample.State (tableHost runningProps) World.initial).1 = .ok st ∧
      st.val = "running" :=
  have hs : ((tableHost runningProps).get World.initial.state AudioContext.sample.Value
      "state").1 = .ok (.string "running") := by
    rfl
  have hT := State_mirrors_host (tableHost runningProps) World.initial AudioContext.sample
    "running" hs
  ⟨hs, hT.1.elim (fun st hst => ⟨st, hst.1, hst.2.1⟩)⟩

/-! ## The sample rate -/

/-- C7, as the code has it: when the "sampleRate" property is the finite
number num / 2 ^ scale and its integer part fits the 64 bits of int,
SampleRate() returns that number truncated towards zero; it returns the number
itself when the number is an integer. -/
theorem SampleRate_truncates (h : Host σ ε) (w : World σ ε) (context : AudioContext)
    (num : Int) (scale : Nat)
    (hr : (h.get w.state context.Value "sampleRate").1 = .ok (.number (.finite num scale)))
    (hfit : -(2 ^ 63) ≤ Int.tdiv num (2 ^ scale) ∧ Int.tdiv num (2 ^ scale) < 2 ^ 63) :
    (context.SampleRate h w).1 = .ok (Int.tdiv num (2 ^ scale)) ∧
    ∀ i : Int, Float64.isInteger (.finite num scale) i → (context.SampleRate h w).1 = .ok i := by
  have hrun : (context.SampleRate h w).1 = .ok (Int.tdiv num (2 ^ scale)) := by
    rw [SampleRate_run context h w (h.get_object _ _ _ _ hr), hr]
    simp only [converted, orPanic, asNumber, Option.map, Host.toInt]
    rw [if_pos hfit]
  refine ⟨hrun, ?_⟩
  intro i hi
  rw [hrun]
  have hi2 : num = i * 2 ^ scale := hi
  have hpos : (2 : Int) ^ scale ≠ 0 := pow_ne_zero _ (by decide)
  rw [hi2, Int.mul_tdiv_cancel _ hpos]

/-- The theorem above at a context running at 44100 Hz. -/
theorem SampleRate_truncates_witness :
    ((tableHost runningProps).get World.initial.state AudioContext.sample.Value
        "sampleRate").1 = .ok (.number (.finite 44100 0)) ∧
    (AudioContext.sample.SampleRate (tableHost runningProps) World.initial).1 = .ok 44100 :=
  have hr : ((tableHost runningProps).get World.initial.state AudioContext.sample.Value
      "sampleRate").1 = .ok (.number (.finite 44100 0)) := by
    rfl
  ⟨hr, (SampleRate_truncates (tableHost runningProps) World.initial AudioContext.sample
    44100 0 hr (by decide)).1⟩

/-- C7 fails as stated: over a context whose "sampleRate" property is 44100.5
SampleRate() returns 44100, which is not that number. -/
theorem SampleRate_drops_fraction :
    ((tableHost fractionalProps).get World.initial.state AudioContext.sample.Value
        "sampleRate").1 = .ok (.number (.finite 88201 1)) ∧
    (AudioContext.sample.SampleRate (tableHost fractionalProps) World.initial).1 = .ok 44100 ∧
    ¬ Float64.isInteger (.finite 88201 1) 44100 := by
  have hr : ((tableHost fractionalProps).get World.initial.state AudioContext.sample.Value
      "sampleRate").1 = .ok (.number (.finite 88201 1)) := by
    rfl
  refine ⟨hr, ?_, by decide⟩
  rw [SampleRate_run AudioContext.sample (tableHost fractionalProps) World.initial rfl, hr]
  simp only [converted, orPanic, asNumber, Option.map, Host.toInt]
  rw [if_pos (by decide)]
  exact congrArg Except.ok (by decide)

/-! ## The clock -/

/-- Two successive calls of CurrentTime return the two successive values of
the host's property. -/
theorem CurrentTimeTwice_of_reads (h : Host σ ε) (w : World σ ε) (context : AudioContext)
    (x y : Float64)
    (hx : (h.get w.state context.Value "currentTime").1 = .ok (.number x))
    (hy : (h.get (h.get w.state context.Value "currentTime").2 context.Value
      "currentTime").1 = .ok (.number y)) :
    (context.CurrentTimeTwice h w).1 = .ok (x, y) := by
  have hobj := h.get_object _ _ _ _ hx
  have hw1 : context.CurrentTime h w =
      (.ok x, ⟨(h.get w.state context.Value "currentTime").2,
        w.log ++ [Event.get context.Value "currentTime"
          (h.get w.state context.Value "currentTime").1]⟩) := by
    rw [CurrentTime_run context h w hobj, hx]; rfl
  have h2 : ∀ log, (context.CurrentTime h
      ⟨(h.get w.state context.Value "currentTime").2, log⟩).1 = .ok y := by
    intro log
    rw [CurrentTime_run context h _ hobj]
    simp only [hy]
    rfl
  have hstep : context.CurrentTimeTwice h w =
      (match context.CurrentTime h w with
        | (.ok a, w1) =>
          (match context.CurrentTime h w1 with
            | (.ok b, w2) => (.ok (a, b), w2)
            | (.error e, w2) => (.error e, w2))
        | (.error e, w1) => (.error e, w1)) := by
    simp only [AudioContext.CurrentTimeTwice, bind, Exec.bind, pure]
    rcases context.CurrentTime h w with ⟨e | a, w1⟩
    · rfl
    · simp only
      rcases context.CurrentTime h w1 with ⟨e | b, w2⟩ <;> rfl
  rw [hstep, hw1]
  simp only
  have h3 := h2 (w.log ++ [Event.get context.Value "currentTime"
    (h.get w.state context.Value "currentTime").1])
  rcases hc : context.CurrentTime h
      ⟨(h.get w.state context.Value "currentTime").2,
        w.log ++ [Event.get context.Value "currentTime"
          (h.get w.state context.Value "currentTime").1]⟩ with ⟨e | b, w2⟩
  · rw [hc] at h3; cases h3
  · rw [hc] at h3
    simp only at h3 ⊢
    cases h3
    rfl

/-- C9, as the code has it: CurrentTime() returns the number the host's
"currentTime" property holds when it is read.  When two successive reads give
x and then y, two successive calls return x and then y: the later result is
greater than or equal to the earlier one exactly when y is to x, and the
earlier result is 0 exactly when x is. -/
theorem CurrentTime_mirrors_host_clock (h : Host σ ε) (w : World σ ε) (context : AudioContext)
    (x y : Float64)
    (hx : (h.get w.state context.Value "currentTime").1 = .ok (.number x))
    (hy : (h.get (h.get w.state context.Value "currentTime").2 context.Value
      "currentTime").1 = .ok (.number y)) :
    (context.CurrentTime h w).1 = .ok x ∧
    ∃ earlier later, (context.CurrentTimeTwice h w).1 = .ok (earlier, later) ∧
      earlier = x ∧ later = y ∧
      (Float64.le earlier later ↔ Float64.le x y) ∧
      (Float64.eq earlier (Float64.ofInt 0) ↔ Float64.eq x (Float64.ofInt 0)) := by
  have h1 : (context.CurrentTime h w).1 = .ok x := by
    rw [CurrentTime_run context h w (h.get_object _ _ _ _ hx), hx]; rfl
  exact ⟨h1, x, y, CurrentTimeTwice_of_reads h w context x y hx hy, rfl, rfl, Iff.rfl, Iff.rfl⟩

/-- The theorem above at a context whose clock shows the step number. -/
theorem CurrentTime_mirrors_host_clock_witness :
    (AudioContext.sample.CurrentTime (tableHost runningProps) World.initial).1 =
      .ok (.finite 0 0) ∧
    ∃ earlier later,
      (AudioContext.sample.CurrentTimeTwice (tableHost runningProps) World.initial).1 =
        .ok (earlier, later) ∧ earlier = .finite 0 0 ∧ later = .finite 1 0 :=
  have hT := CurrentTime_mirrors_host_clock (tableHost runningProps) World.initial
    AudioContext.sample (.finite 0 0) (.finite 1 0)
    rfl
    rfl
  ⟨hT.1, hT.2.elim (fun a ha => ha.elim (fun b hb => ⟨a, b, hb.1, hb.2.1, hb.2.2.1⟩))⟩

/-- C9 fails as stated: over an object whose "currentTime" property reads 5
and then 3, the first CurrentTime() is 5, not 0, and the next one is 3, which
is less. -/
theorem CurrentTime_can_go_back :
    (AudioContext.sample.CurrentTimeTwice (tableHost rewindingProps) World.initial).1 =
      .ok (.finite 5 0, .finite 3 0) ∧
    ¬ Float64.le (.finite 5 0) (.finite 3 0) ∧
    ¬ Float64.eq (.finite 5 0) (Float64.ofInt 0) := by
  refine ⟨?_, by decide, by decide⟩
  exact CurrentTimeTwice_of_reads (tableHost rewindingProps) World.initial
    AudioContext.sample (.finite 5 0) (.finite 3 0)
    rfl
    rfl

/-! ## Failures -/

/-- How a method call followed by wrapping fails. -/
theorem failureOfCall_of_wrap {α : Type} (m : Exec σ ε α) (wrap : js.Value → α)
    (obj : js.Value) (method : String) (args : List js.Value)
    (hm : m = bind (Value.Call obj method args) (fun v => (pure (wrap v) : Exec σ ε α)))
    (h : Host σ ε) (w : World σ ε) :
    FailureOfCall (m h w).1 obj method (h.call w.state obj method args).1
      (h.get (h.call w.state obj method args).2 obj method).1 := by
  subst hm
  unfold FailureOfCall
  rw [bind_pure_run]
  intro p
  rcases hr : (h.call w.state obj method args).1 with err | res
  · cases hobj : obj.typeOf.isObject
    · rw [Call_run_error_other obj method args h w err hr hobj]
      simp [Except.map, eq_comm]
    · rw [Call_run_error_object obj method args h w err hr hobj]
      rcases hg : (h.get (h.call w.state obj method args).2 obj method).1 with e2 | property
      · simp [Except.map, eq_comm]
      · by_cases hf : property.typeOf = JSType.TypeFunction
        · simp [Except.map, hf, eq_comm]
        · have hf2 : ¬ JSType.TypeFunction = property.typeOf := fun hEq => hf hEq.symm
          simp [Except.map, hf, hf2, eq_comm]
  · rw [Call_run_ok obj method args h w res hr]
    simp [Except.map]

/-- How a getter whose conversion never refuses fails. -/
theorem failureOfGet_of_run {α : Type} (out : Except (Panic ε) α) (conv : js.Value → α)
    (refused : js.Value → Panic ε) (obj : js.Value) (r : Except ε js.Value)
    (hobject : obj.typeOf.isObject = true →
      out = converted (fun v => some (conv v)) refused r)
    (hother : obj.typeOf.isObject = false → out = .error (.valueError "Value.Get" obj.typeOf)) :
    FailureOfGet out obj r := by
  intro p
  cases hobj : obj.typeOf.isObject
  · rw [hother hobj]
    simp [eq_comm]
  · rw [hobject hobj]
    cases r <;> simp [converted, orPanic, eq_comm]

/-- How a getter that converts to a number fails. -/
theorem failureOfConversion_of_run {α : Type} (out : Except (Panic ε) α) (f : Float64 → α)
    (method : String) (obj : js.Value) (r : Except ε js.Value)
    (hobject : obj.typeOf.isObject = true →
      out = converted (fun v => (asNumber v).map f) (fun v => .valueError method v.typeOf) r)
    (hother : obj.typeOf.isObject = false → out = .error (.valueError "Value.Get" obj.typeOf)) :
    FailureOfReadOrConversion out obj r method := by
  intro p
  cases hobj : obj.typeOf.isObject
  · rw [hother hobj]
    simp [eq_comm]
  · rw [hobject hobj]
    cases r with
    | error e => simp [converted, eq_comm]
    | ok v => cases v <;> simp [converted, orPanic, asNumber, Value.typeOf, eq_comm]

/-- C4, as the code has it: no operation of AudioContext defines an error of
its own, and each fails only as follows.  Analyser, BiquadFilter, Gain,
Oscillator, MediaStreamSource and Resume fail exactly when the host method
call they forward fails: with the ValueError of Value.Call on a handle that is
neither an object nor a function; on an object, after Value.Call has read the
property of the method's name, with the error of that read if it fails, with
the message of Value.Call if the property is not a function, and with the
error the host raised for the call if it is.  State and Destination fail on a
handle that is neither an object nor a function, with the ValueError of
Value.Get, and on an object exactly when the property read fails, with the
host's own error.  CurrentTime and SampleRate fail in these two cases and in
one more: when the read succeeds with a value that is not a number, with the
ValueError of the conversion Value.Float, respectively Value.Int. -/
theorem failures_are_host_or_conversion (h : Host σ ε) (w : World σ ε) (context : AudioContext)
    (stream : MediaStream) :
    FailureOfGet (context.State h w).1 context.Value
      (h.get w.state context.Value "state").1 ∧
    FailureOfGet (context.Destination h w).1 context.Value
      (h.get w.state context.Value "destination").1 ∧
    FailureOfCall (context.Analyser h w).1 context.Value "createAnalyser"
      (h.call w.state context.Value "createAnalyser" []).1
      (h.get (h.call w.state context.Value "createAnalyser" []).2 context.Value
        "createAnalyser").1 ∧
    FailureOfCall (context.BiquadFilter h w).1 context.Value "createBiquadFilter"
      (h.call w.state context.Value "createBiquadFilter" []).1
      (h.get (h.call w.state context.Value "createBiquadFilter" []).2 context.Value
        "createBiquadFilter").1 ∧
    FailureOfCall (context.Gain h w).1 context.Value "createGain"
      (h.call w.state context.Value "createGain" []).1
      (h.get (h.call w.state context.Value "createGain" []).2 context.Value "createGain").1 ∧
    FailureOfCall (context.Oscillator h w).1 context.Value "createOscillator"
      (h.call w.state context.Value "createOscillator" []).1
      (h.get (h.call w.state context.Value "createOscillator" []).2 context.Value
        "createOscillator").1 ∧
    FailureOfCall (context.MediaStreamSource stream h w).1 context.Value
      "createMediaStreamSource"
      (h.call w.state context.Value "createMediaStreamSource" [stream.JSValue]).1
      (h.get (h.call w.state context.Value "createMediaStreamSource" [stream.JSValue]).2
        context.Value "createMediaStreamSource").1 ∧
    FailureOfCall (context.Resume h w).1 context.Value "resume"
      (h.call w.state context.Value "resume" []).1
      (h.get (h.call w.state context.Value "resume" []).2 context.Value "resume").1 ∧
    FailureOfReadOrConversion (context.CurrentTime h w).1 context.Value
      (h.get w.state context.Value "currentTime").1 "Value.Float" ∧
    FailureOfReadOrConversion (context.SampleRate h w).1 context.Value
      (h.get w.state context.Value "sampleRate").1 "Value.Int" := by
  have hother : ∀ {α : Type} (k : js.Value → Exec σ ε α) (property : String),
      context.Value.typeOf.isObject = false →
      ((bind (Value.Get context.Value property) k) h w).1 =
        .error (.valueError "Value.Get" context.Value.typeOf) := by
    intro α k property hobj
    rw [getter_run_other k _ _ h w hobj]
  refine ⟨?_, ?_, failureOfCall_of_wrap _ _ _ _ _ rfl h w,
    failureOfCall_of_wrap _ _ _ _ _ rfl h w, failureOfCall_of_wrap _ _ _ _ _ rfl h w,
    failureOfCall_of_wrap _ _ _ _ _ rfl h w, failureOfCall_of_wrap _ _ _ _ _ rfl h w,
    failureOfCall_of_wrap _ _ _ _ _ rfl h w, ?_, ?_⟩
  · exact failureOfGet_of_run _ (fun v => AudioContextState.mk (Value.stringOf h v)) _ _ _
      (fun hobj => by rw [State_run context h w hobj]) (hother _ _)
  · exact failureOfGet_of_run _ (fun v => DestinationNode.mk (AudioNode.mk v)) _ _ _
      (fun hobj => by rw [Destination_run context h w hobj]) (hother _ _)
  · refine failureOfConversion_of_run _ id _ _ _ (fun hobj => ?_) (hother _ _)
    rw [CurrentTime_run context h w hobj]
    simp only [Option.map_id_fun, id_eq]
  · exact failureOfConversion_of_run _ h.toInt _ _ _
      (fun hobj => by rw [SampleRate_run context h w hobj]) (hother _ _)

/-- C4 fails as stated: over an object without a "currentTime" property the
read succeeds, with undefined, and CurrentTime() fails all the same, with an
error the host did not raise. -/
theorem CurrentTime_fails_though_read_succeeds :
    ((tableHost bareProps).get World.initial.state AudioContext.sample.Value
        "currentTime").1 = .ok .undefined ∧
    (AudioContext.sample.CurrentTime (tableHost bareProps) World.initial).1 =
      .error (.valueError "Value.Float" .TypeUndefined) ∧
    ¬ TransparentFailure
      (AudioContext.sample.CurrentTime (tableHost bareProps) World.initial).1
      ((tableHost bareProps).get World.initial.state AudioContext.sample.Value
        "currentTime").1 := by
  have hrun : (AudioContext.sample.CurrentTime (tableHost bareProps) World.initial).1 =
      .error (.valueError "Value.Float" .TypeUndefined) := by
    rfl
  refine ⟨rfl, hrun, ?_⟩
  intro hT
  obtain ⟨e, he, -⟩ := (hT _).1 hrun
  cases he

/-! ## No caching -/

/-- One more run, unfolded. -/
theorem times_succ_run {α : Type} (m : Exec σ ε α) (n : Nat) (h : Host σ ε) (w : World σ ε) :
    times m (n + 1) h w =
      (match m h w with
        | (.ok a, w1) =>
          (match times m n h w1 with
            | (.ok rest, w2) => (.ok (a :: rest), w2)
            | (.error e, w2) => (.error e, w2))
        | (.error e, w1) => (.error e, w1)) := by
  simp only [times, bind, Exec.bind, pure]
  rcases m h w with ⟨e | a, w1⟩
  · rfl
  · simp only
    rcases times m n h w1 with ⟨e | rest, w2⟩ <;> rfl

/-- After a run that returned, the world of the loop is that of the runs that
follow. -/
theorem times_succ_world {α : Type} (m : Exec σ ε α) (n : Nat) (h : Host σ ε) (w w1 : World σ ε)
    (a : α) (hrun : m h w = (.ok a, w1)) :
    (times m (n + 1) h w).2 = (times m n h w1).2 ∧
    (times m (n + 1) h w).1 = Except.map (fun rest => a :: rest) (times m n h w1).1 := by
  rw [times_succ_run, hrun]
  simp only
  rcases times m n h w1 with ⟨e | rest, w2⟩ <;> exact ⟨rfl, rfl⟩

/-- No run: nothing happens. -/
theorem times_zero_run {α : Type} (m : Exec σ ε α) (h : Host σ ε) (w : World σ ε) :
    times m 0 h w = (.ok [], w) := rfl

/-- A list of answers that are all values, headed by a value. -/
theorem ok_cons_eq_map {rest : List (Except ε js.Value)} {v : js.Value} {vs : List js.Value}
    (hEq : (Except.ok v : Except ε js.Value) :: rest = vs.map .ok) :
    ∃ vs1, vs = v :: vs1 ∧ rest = vs1.map .ok := by
  cases vs with
  | nil => cases hEq
  | cons v1 vs1 =>
    simp only [List.map_cons, List.cons.injEq, Except.ok.injEq] at hEq
    exact ⟨vs1, by rw [hEq.1], hEq.2⟩

/-- The answers are not all values when the first is a failure. -/
theorem error_singleton_ne_map {e : ε} {vs : List js.Value}
    (hEq : [(Except.error e : Except ε js.Value)] = vs.map .ok) : False := by
  cases vs with
  | nil => cases hEq
  | cons v1 vs1 => simp at hEq

/-- A method that forwards a call, run again and again. -/
theorem repeatsCall_of_forwards {α : Type} (m : Exec σ ε α) (wrap : js.Value → α)
    (obj : js.Value) (method : String) (args : List js.Value) (h : Host σ ε)
    (hm : ∀ w, ForwardsCall m h w obj method args wrap) (n : Nat) (w : World σ ε) :
    RepeatsCall m n h w obj method args wrap := by
  induction n generalizing w with
  | zero =>
    refine ⟨by simp [times_zero_run, hostCallSeq], ?_⟩
    intro vs hvs
    have hnil : vs = [] := by
      cases vs with
      | nil => rfl
      | cons v vs1 => simp [hostCallSeq] at hvs
    subst hnil
    refine ⟨rfl, ?_⟩
    rw [times_zero_run]
    simp [hostCallSeq]
  | succ n ih =>
    obtain ⟨hcalls, hok, herr⟩ := hm w
    rcases hr : (h.call w.state obj method args).1 with err | v
    · obtain ⟨⟨p, hp⟩, -⟩ := herr err hr
      have hseq : (hostCallSeq h obj method args (n + 1) w.state).1 = [.error err] := by
        simp only [hostCallSeq, hr]
      have hrun : times m (n + 1) h w = (.error p, (m h w).2) := by
        rw [times_succ_run]
        rcases hmw : m h w with ⟨out, w1⟩
        rw [hmw] at hp
        simp only at hp
        subst hp
        rfl
      refine ⟨?_, ?_⟩
      · rw [hrun, hseq]
        simp only [List.map_cons, List.map_nil]
        rw [hcalls, hr]
      · intro vs hvs
        rw [hseq] at hvs
        exact (error_singleton_ne_map hvs).elim
    · have hrun := hok v hr
      obtain ⟨hworld, hout⟩ := times_succ_world m n h w _ _ hrun
      obtain ⟨ihcalls, ihok⟩ := ih
        ⟨(h.call w.state obj method args).2, w.log ++ [Event.call obj method args (.ok v)]⟩
      have hseq : hostCallSeq h obj method args (n + 1) w.state =
          (.ok v :: (hostCallSeq h obj method args n (h.call w.state obj method args).2).1,
            (hostCallSeq h obj method args n (h.call w.state obj method args).2).2) := by
        simp only [hostCallSeq, hr]
      refine ⟨?_, ?_⟩
      · rw [hworld, ihcalls, hseq]
        simp only [List.map_cons]
        rw [methodCalls_append_call]
        simp
      · intro vs hvs
        rw [hseq] at hvs
        obtain ⟨vs1, hvs1, hrest⟩ := ok_cons_eq_map hvs
        subst hvs1
        obtain ⟨hlen, htimes⟩ := ihok vs1 hrest
        refine ⟨by simp [hlen], ?_⟩
        have hpair : times m (n + 1) h w =
            ((times m (n + 1) h w).1, (times m (n + 1) h w).2) := rfl
        rw [hpair, hworld, hout, htimes, hseq]
        simp [Except.map]

/-- A getter that runs as one read and a conversion, run again and again on
an object. -/
theorem repeatsGet_of_run {α : Type} (m : Exec σ ε α) (conv : js.Value → Option α)
    (refused : js.Value → Panic ε) (obj : js.Value) (property : String) (h : Host σ ε)
    (hm : ∀ w, m h w =
      (converted conv refused (h.get w.state obj property).1,
        ⟨(h.get w.state obj property).2,
          w.log ++ [Event.get obj property (h.get w.state obj property).1]⟩))
    (n : Nat) (w : World σ ε) : RepeatsGet m n h w obj property conv := by
  induction n generalizing w with
  | zero =>
    refine ⟨by simp [times_zero_run, hostReadSeq], ?_⟩
    intro vs rs hvs hrs
    have hnil : vs = [] := by
      cases vs with
      | nil => rfl
      | cons v vs1 => simp [hostReadSeq] at hvs
    subst hnil
    have hrnil : rs = [] := by
      cases rs with
      | nil => rfl
      | cons r rs1 => simp at hrs
    subst hrnil
    exact ⟨rfl, rfl⟩
  | succ n ih =>
    have hstop : ∀ out : Except (Panic ε) α, ∀ p, out = .error p →
        m h w = (out, (m h w).2) → times m (n + 1) h w = (.error p, (m h w).2) := by
      intro out p hout hmw
      rw [times_succ_run]
      rcases hmw2 : m h w with ⟨out2, w1⟩
      rw [hmw2] at hmw
      simp only [Prod.mk.injEq, and_true] at hmw
      subst hmw
      subst hout
      rfl
    rcases hr : (h.get w.state obj property).1 with err | v
    · have hseq : hostReadSeq h obj property conv (n + 1) w.state =
          ([.error err], (h.get w.state obj property).2) := by
        simp only [hostReadSeq, hr]
      have hrun := hstop (.error (.host err)) _ rfl (by rw [hm w, hr]; rfl)
      refine ⟨?_, ?_⟩
      · rw [hrun, hm w, hseq, hr]
        rfl
      · intro vs rs hvs hrs
        rw [hseq] at hvs
        exact (error_singleton_ne_map hvs).elim
    · rcases hc : conv v with _ | a
      · have hseq : hostReadSeq h obj property conv (n + 1) w.state =
            ([.ok v], (h.get w.state obj property).2) := by
          simp [hostReadSeq, hr, hc]
        have hrun := hstop (.error (refused v)) _ rfl
          (by rw [hm w, hr]; simp [converted, orPanic, hc])
        refine ⟨?_, ?_⟩
        · rw [hrun, hm w, hseq, hr]
          rfl
        · intro vs rs hvs hrs
          rw [hseq] at hvs
          obtain ⟨vs1, hvs1, hrest⟩ := ok_cons_eq_map hvs
          subst hvs1
          cases rs with
          | nil => simp at hrs
          | cons r rs1 =>
            simp only [List.map_cons, List.cons.injEq] at hrs
            rw [hc] at hrs
            cases hrs.1
      · have hseq : hostReadSeq h obj property conv (n + 1) w.state =
            (.ok v :: (hostReadSeq h obj property conv n (h.get w.state obj property).2).1,
              (hostReadSeq h obj property conv n (h.get w.state obj property).2).2) := by
          simp [hostReadSeq, hr, hc]
        have hrun : m h w = (.ok a, ⟨(h.get w.state obj property).2,
            w.log ++ [Event.get obj property (.ok v)]⟩) := by
          rw [hm w, hr]; simp [converted, orPanic, hc]
        obtain ⟨hworld, hout⟩ := times_succ_world m n h w _ _ hrun
        obtain ⟨ihworld, ihok⟩ := ih
          ⟨(h.get w.state obj property).2, w.log ++ [Event.get obj property (.ok v)]⟩
        refine ⟨?_, ?_⟩
        · rw [hworld, ihworld, hseq]
          simp
        · intro vs rs hvs hrs
          rw [hseq] at hvs
          obtain ⟨vs1, hvs1, hrest⟩ := ok_cons_eq_map hvs
          subst hvs1
          cases rs with
          | nil => simp at hrs
          | cons r rs1 =>
            simp only [List.map_cons, List.cons.injEq] at hrs
            obtain ⟨hlen, hres⟩ := ihok vs1 rs1 hrest hrs.2
            rw [hc] at hrs
            have hra : a = r := Option.some.inj hrs.1
            subst hra
            refine ⟨by simp [hlen], ?_⟩
            rw [hout, hres]
            rfl

/-- C8, as the code has it: no operation caches or retries.  Run n times on the
same context, each factory method issues one method call per run, the host's
successive answers up to the first failure, and when the host answers n times
these n calls are all the interactions and the k-th wrapper holds the value of
the k-th call.  Likewise, on a context whose handle is an object or a
function, each getter run n times makes one property read per run and nothing
else, up to the first read that fails or cannot be converted, and when the
host answers n times the k-th result comes from the k-th read. -/
theorem no_caching (n : Nat) (h : Host σ ε) (w : World σ ε) (context : AudioContext)
    (stream : MediaStream) :
    RepeatsCall context.Analyser n h w context.Value "createAnalyser" []
      (fun v => AnalyserNode.mk (AudioNode.mk v)) ∧
    RepeatsCall context.BiquadFilter n h w context.Value "createBiquadFilter" []
      (fun v => BiquadFilterNode.mk (AudioNode.mk v)) ∧
    RepeatsCall context.Gain n h w context.Value "createGain" []
      (fun v => GainNode.mk (AudioNode.mk v)) ∧
    RepeatsCall context.Oscillator n h w context.Value "createOscillator" []
      (fun v => OscillatorNode.mk (AudioNode.mk v)) ∧
    RepeatsCall (context.MediaStreamSource stream) n h w context.Value
      "createMediaStreamSource" [stream.JSValue]
      (fun v => MediaStreamSourceNode.mk (AudioNode.mk v)) ∧
    (context.Value.typeOf.isObject = true →
      RepeatsGet context.CurrentTime n h w context.Value "currentTime" asNumber ∧
      RepeatsGet context.Destination n h w context.Value "destination"
        (fun v => some (DestinationNode.mk (AudioNode.mk v))) ∧
      RepeatsGet context.SampleRate n h w context.Value "sampleRate"
        (fun v => (asNumber v).map h.toInt) ∧
      RepeatsGet context.State n h w context.Value "state"
        (fun v => some (AudioContextState.mk (Value.stringOf h v)))) :=
  ⟨repeatsCall_of_forwards _ _ _ _ _ h (fun w1 => forwardsCall_of_wrap _ _ _ _ _ rfl h w1) n w,
    repeatsCall_of_forwards _ _ _ _ _ h (fun w1 => forwardsCall_of_wrap _ _ _ _ _ rfl h w1) n w,
    repeatsCall_of_forwards _ _ _ _ _ h (fun w1 => forwardsCall_of_wrap _ _ _ _ _ rfl h w1) n w,
    repeatsCall_of_forwards _ _ _ _ _ h (fun w1 => forwardsCall_of_wrap _ _ _ _ _ rfl h w1) n w,
    repeatsCall_of_forwards _ _ _ _ _ h (fun w1 => forwardsCall_of_wrap _ _ _ _ _ rfl h w1) n w,
    fun hobj =>
      ⟨repeatsGet_of_run _ _ _ _ _ h (fun w1 => CurrentTime_run context h w1 hobj) n w,
        repeatsGet_of_run _ _ _ _ _ h (fun w1 => Destination_run context h w1 hobj) n w,
        repeatsGet_of_run _ _ _ _ _ h (fun w1 => SampleRate_run context h w1 hobj) n w,
        repeatsGet_of_run _ _ _ _ _ h (fun w1 => State_run context h w1 hobj) n w⟩⟩

/-- The theorem above at three runs: the three nodes of Gain hold the three
objects the host returned, one per call, and the three results of CurrentTime
are the three successive readings of the clock. -/
theorem no_caching_witness :
    times AudioContext.sample.Gain 3 (tableHost runningProps) World.initial =
      (.ok [⟨⟨.object 100⟩⟩, ⟨⟨.object 101⟩⟩, ⟨⟨.object 102⟩⟩],
        ⟨3, [Event.call (.object 7) "createGain" [] (.ok (.object 100)),
          Event.call (.object 7) "createGain" [] (.ok (.object 101)),
          Event.call (.object 7) "createGain" [] (.ok (.object 102))]⟩) ∧
    (times AudioContext.sample.CurrentTime 3 (tableHost runningProps) World.initial).1 =
      .ok [.finite 0 0, .finite 1 0, .finite 2 0] :=
  have hT := no_caching 3 (tableHost runningProps) World.initial AudioContext.sample
    ⟨.undefined⟩
  ⟨(hT.2.2.1.2 [.object 100, .object 101, .object 102] rfl).2,
    ((hT.2.2.2.2.2 rfl).1.2
      [.number (.finite 0 0), .number (.finite 1 0), .number (.finite 2 0)]
      [.finite 0 0, .finite 1 0, .finite 2 0] rfl rfl).2⟩

/-- C8 fails as stated: on the zero AudioContext, whose handle is undefined,
one call of the getter State() performs no property read. -/
theorem State_of_zero_reads_nothing :
    times AudioContext.zero.State 1 (tableHost runningProps) World.initial =
      (.error (.valueError "Value.Get" .TypeUndefined), World.initial) ∧
    propertyReads (times AudioContext.zero.State 1 (tableHost runningProps)
      World.initial).2.log = [] :=
  ⟨rfl, rfl⟩

end audio
